import Mathlib

/-!
Verification development for the curvycad KiCad track-projection plugin
(`docs/magnetic_propulsion_track_example.py`).

Coordinates in millimetres are modelled as exact rationals (`ℚ`); the host
board's integer nanometre units are `ℤ`.  Python's `int(...)` truncates
toward zero, which on a rational `q` is `q.num.tdiv q.den`.  The curvycad
core library (pattern types, guide path, projector) is not part of the
sources; definitions for it are modelled from the specification and say so
in their doc comments.  Real-valued arc geometry uses `ℝ`.
-/

/-- Python `int(q)` for a rational `q`: truncation toward zero.
Models the `int(...)` calls in `FixedKicadTrackBuilder`. -/
def pyint (q : ℚ) : ℤ :=
  q.num.tdiv q.den

/-- The uniform mm→internal-units conversion rule: truncation of the value
multiplied by `1e6` (`int(x * 1e6)`). -/
def toInternal (x : ℚ) : ℤ :=
  pyint (x * 1000000)

/-- Board layer identifiers.  Opaque: the numeric values stand for the
`pcbnew` layer constants and only their distinctness matters here. -/
abbrev Layer := ℕ

/-- Layer constant `pcbnew.F_Cu`. -/
def F_Cu : Layer := 0

/-- Layer constant `pcbnew.In1_Cu`. -/
def In1_Cu : Layer := 1

/-- Layer constant `pcbnew.In2_Cu`. -/
def In2_Cu : Layer := 2

/-- Layer constant `pcbnew.B_Cu`. -/
def B_Cu : Layer := 31

/-- Layer constant `pcbnew.F_SilkS`. -/
def F_SilkS : Layer := 37

/-- Modelled from the spec: the pattern element types `cc.ParallelLine`,
`cc.TransverseLine` and `cc.Via` of the curvycad library, which is not in
the sources.  Field order follows the calls in `create_track_pattern`:
`ParallelLine(start, end, offset, width, layer)`,
`TransverseLine(start, end, offset, width, layer)` where for a transverse
line `start`/`end` are transverse offsets and `offset` is the longitudinal
coordinate, and `Via(u, offset, drill, pad)`. -/
inductive PatternElement
  | parallel (uStart uEnd offset width : ℚ) (layer : Layer)
  | transverse (offsetStart offsetEnd u width : ℚ) (layer : Layer)
  | via (u offset drill pad : ℚ)
  deriving DecidableEq

/-- Modelled from the spec: the per-element construction invariant of the
Pattern model (curvycad library, not in the sources): every longitudinal
`u` value lies in `[0,1]`, `uStart ≤ uEnd` for a parallel line, and widths
and diameters are strictly positive. -/
def ElementInvariant : PatternElement → Prop
  | .parallel uStart uEnd _ width _ =>
      0 ≤ uStart ∧ uStart ≤ 1 ∧ 0 ≤ uEnd ∧ uEnd ≤ 1 ∧ uStart ≤ uEnd ∧ 0 < width
  | .transverse _ _ u width _ =>
      0 ≤ u ∧ u ≤ 1 ∧ 0 < width
  | .via u _ drill pad =>
      0 ≤ u ∧ u ≤ 1 ∧ 0 < drill ∧ 0 < pad

instance (e : PatternElement) : Decidable (ElementInvariant e) := by
  cases e <;> dsimp [ElementInvariant] <;> infer_instance

/-- Error kinds of the engine (spec §7). -/
inductive TrackError
  | invalidPattern
  | pathTooShort
  deriving DecidableEq

/-- A validated pattern: the element list together with the fact that it
passed construction-time validation. -/
structure Pattern where
  elements : List PatternElement
  valid : ∀ e ∈ elements, ElementInvariant e

/-- Modelled from the spec: `Pattern` construction (curvycad library, not
in the sources).  Validation happens here, before any guide path is
supplied or any projection work begins; it fails with `invalidPattern`
exactly when some element violates its invariant. -/
def mkPattern (es : List PatternElement) : Except TrackError Pattern :=
  if h : ∀ e ∈ es, ElementInvariant e then .ok ⟨es, h⟩ else .error .invalidPattern

/-- Source constant `WIDTH = 10.0`. -/
def WIDTH : ℚ := 10

/-- Source constant `PITCH = 4.0`. -/
def PITCH : ℚ := 4

/-- Source constant `LINE_WIDTH = 0.45`. -/
def LINE_WIDTH : ℚ := 0.45

/-- Source constant `VIA_DRILL = 0.2`. -/
def VIA_DRILL : ℚ := 0.2

/-- Source constant `VIA_PAD = 0.45`. -/
def VIA_PAD : ℚ := 0.45

/-- Source constant `GUIDE_RAIL_WIDTH = 1.25`. -/
def GUIDE_RAIL_WIDTH : ℚ := 1.25

/-- Source constant `GUIDE_RAIL_SPACE = 6 + GUIDE_RAIL_WIDTH`. -/
def GUIDE_RAIL_SPACE : ℚ := 6 + GUIDE_RAIL_WIDTH

/-- Source constant `CU_CLEARANCE = 0.2`. -/
def CU_CLEARANCE : ℚ := 0.2

/-- Source constant `OUTER_MARKING_WIDTH = 2.0`. -/
def OUTER_MARKING_WIDTH : ℚ := 2

/-- Source local `TRACK_CENTER = 0.0` of `create_track_pattern`. -/
def TRACK_CENTER : ℚ := 0

/-- Source local `TRACK_MINOR = WIDTH / 2` of `create_track_pattern`. -/
def TRACK_MINOR : ℚ := WIDTH / 2

/-- Source local `TRACK_MAJOR = WIDTH / 2 + VIA_PAD / 2 + CU_CLEARANCE + LINE_WIDTH / 2`
of `create_track_pattern`. -/
def TRACK_MAJOR : ℚ := WIDTH / 2 + VIA_PAD / 2 + CU_CLEARANCE + LINE_WIDTH / 2

/-- The pattern list built by `create_track_pattern`
(`magnetic_propulsion_track_example.py`, lines 24–110), element for
element in source order. -/
def create_track_pattern : List PatternElement :=
  [ .parallel 0 1 (TRACK_CENTER + TRACK_MAJOR + OUTER_MARKING_WIDTH / 2) OUTER_MARKING_WIDTH F_SilkS
  , .parallel 0 1 (-(TRACK_CENTER + TRACK_MAJOR + OUTER_MARKING_WIDTH / 2)) OUTER_MARKING_WIDTH F_SilkS
  , .parallel 0 1 (-GUIDE_RAIL_SPACE / 2) GUIDE_RAIL_WIDTH F_Cu
  , .parallel 0 1 (GUIDE_RAIL_SPACE / 2) GUIDE_RAIL_WIDTH F_Cu
  , .transverse (-(TRACK_CENTER - TRACK_MINOR)) (-(TRACK_CENTER + TRACK_MAJOR)) 0 LINE_WIDTH In1_Cu
  , .parallel 0 0.5 (-(TRACK_CENTER + TRACK_MAJOR)) LINE_WIDTH In1_Cu
  , .transverse (-(TRACK_CENTER + TRACK_MAJOR)) (-(TRACK_CENTER - TRACK_MINOR)) 0.5 LINE_WIDTH In1_Cu
  , .via 0.5 (-(TRACK_CENTER - TRACK_MINOR)) VIA_DRILL VIA_PAD
  , .parallel 0.5 1 (-(TRACK_CENTER - TRACK_MINOR)) LINE_WIDTH In2_Cu
  , .via 1 (-(TRACK_CENTER - TRACK_MINOR)) VIA_DRILL VIA_PAD
  , .parallel 0 0.25 (-(TRACK_CENTER - TRACK_MAJOR)) LINE_WIDTH In1_Cu
  , .transverse (-(TRACK_CENTER - TRACK_MAJOR)) (-(TRACK_CENTER + TRACK_MINOR)) 0.25 LINE_WIDTH In1_Cu
  , .via 0.25 (-(TRACK_CENTER + TRACK_MINOR)) VIA_DRILL VIA_PAD
  , .parallel 0.25 0.75 (-(TRACK_CENTER + TRACK_MINOR)) LINE_WIDTH In2_Cu
  , .via 0.75 (-(TRACK_CENTER + TRACK_MINOR)) VIA_DRILL VIA_PAD
  , .transverse (-(TRACK_CENTER + TRACK_MINOR)) (-(TRACK_CENTER - TRACK_MAJOR)) 0.75 LINE_WIDTH In1_Cu
  , .parallel 0.75 1 (-(TRACK_CENTER - TRACK_MAJOR)) LINE_WIDTH In1_Cu
  ]

/-- `FixedKicadTrackBuilder.point_to_vector2i` (source lines 114–116):
convert a millimetre coordinate pair to integer internal units,
`VECTOR2I(int(p[0] * 1e6), int(p[1] * 1e6))`. -/
def point_to_vector2i (p : ℚ × ℚ) : ℤ × ℤ :=
  (pyint (p.1 * 1000000), pyint (p.2 * 1000000))

/-- Items the emitter can place on the board, with the fields the source
sets on each `pcbnew` object. -/
inductive BoardItem
  | pcbTrack (startPt stopPt : ℤ × ℤ) (width : ℤ) (layer : Layer)
  | shapeSegment (startPt stopPt : ℤ × ℤ) (width : ℤ) (layer : Layer)
  | pcbArc (startPt midPt stopPt : ℤ × ℤ) (width : ℤ) (layer : Layer)
  | shapeArc (startPt midPt stopPt : ℤ × ℤ) (width : ℤ) (layer : Layer)
  | footprintVia (pos : ℤ × ℤ) (padSize drillSize : ℤ × ℤ)
  | throughVia (pos : ℤ × ℤ) (drill : ℤ)
  deriving DecidableEq

/-- An item is electrically connected copper (track, arc track, via) as
opposed to a drawn shape. -/
def BoardItem.isConnected : BoardItem → Bool
  | .pcbTrack _ _ _ _ => true
  | .pcbArc _ _ _ _ _ => true
  | .footprintVia _ _ _ => true
  | .throughVia _ _ => true
  | .shapeSegment _ _ _ _ => false
  | .shapeArc _ _ _ _ _ => false

/-- Start point of an item, where the source sets one. -/
def BoardItem.startOf : BoardItem → Option (ℤ × ℤ)
  | .pcbTrack s _ _ _ => some s
  | .shapeSegment s _ _ _ => some s
  | .pcbArc s _ _ _ _ => some s
  | .shapeArc s _ _ _ _ => some s
  | .footprintVia _ _ _ => none
  | .throughVia _ _ => none

/-- Mid point of an arc item. -/
def BoardItem.midOf : BoardItem → Option (ℤ × ℤ)
  | .pcbArc _ m _ _ _ => some m
  | .shapeArc _ m _ _ _ => some m
  | _ => none

/-- End point of an item, where the source sets one. -/
def BoardItem.stopOf : BoardItem → Option (ℤ × ℤ)
  | .pcbTrack _ e _ _ => some e
  | .shapeSegment _ e _ _ => some e
  | .pcbArc _ _ e _ _ => some e
  | .shapeArc _ _ e _ _ => some e
  | .footprintVia _ _ _ => none
  | .throughVia _ _ => none

/-- Width of an item, where the source sets one. -/
def BoardItem.widthOf : BoardItem → Option ℤ
  | .pcbTrack _ _ w _ => some w
  | .shapeSegment _ _ w _ => some w
  | .pcbArc _ _ _ w _ => some w
  | .shapeArc _ _ _ w _ => some w
  | .footprintVia _ _ _ => none
  | .throughVia _ _ => none

/-- Layer of an item, where the source sets one. -/
def BoardItem.layerOf : BoardItem → Option Layer
  | .pcbTrack _ _ _ l => some l
  | .shapeSegment _ _ _ l => some l
  | .pcbArc _ _ _ _ l => some l
  | .shapeArc _ _ _ _ l => some l
  | .footprintVia _ _ _ => none
  | .throughVia _ _ => none

/-- The item built by `FixedKicadTrackBuilder.emit_line` (source lines
118–135): a `PCB_TRACK` when the layer is a routing layer, otherwise a
`PCB_SHAPE` segment, in both cases with the converted start point, end
point, width `int(width * 1e6)` and layer. -/
def emit_line_item (routing : List Layer) (p0 p1 : ℚ × ℚ) (width : ℚ) (layer : Layer) : BoardItem :=
  if layer ∈ routing then
    .pcbTrack (point_to_vector2i p0) (point_to_vector2i p1) (pyint (width * 1000000)) layer
  else
    .shapeSegment (point_to_vector2i p0) (point_to_vector2i p1) (pyint (width * 1000000)) layer

/-- The item built by `FixedKicadTrackBuilder.emit_arc` (source lines
137–161): a `PCB_ARC` when the layer is a routing layer, otherwise a
`PCB_SHAPE` arc via `SetArcGeometry`, in both cases with the converted
start, mid and end points, width `int(width * 1e6)` and layer. -/
def emit_arc_item (routing : List Layer) (startP midP endP : ℚ × ℚ) (width : ℚ) (layer : Layer) : BoardItem :=
  if layer ∈ routing then
    .pcbArc (point_to_vector2i startP) (point_to_vector2i midP) (point_to_vector2i endP)
      (pyint (width * 1000000)) layer
  else
    .shapeArc (point_to_vector2i startP) (point_to_vector2i midP) (point_to_vector2i endP)
      (pyint (width * 1000000)) layer

/-- The footprint-with-pad item built on `emit_via`'s primary path (source
lines 166–182): position, circular pad of size `pad`, drill of size
`drill`, all converted by `int(x * 1e6)`. -/
def via_module_item (p : ℚ × ℚ) (drill pad : ℚ) : BoardItem :=
  .footprintVia (point_to_vector2i p)
    (pyint (pad * 1000000), pyint (pad * 1000000))
    (pyint (drill * 1000000), pyint (drill * 1000000))

/-- The `PCB_VIA` item built on `emit_via`'s fallback path (source lines
186–194): position and drill `int(drill * 1e6)`. -/
def via_fallback_item (p : ℚ × ℚ) (drill : ℚ) : BoardItem :=
  .throughVia (point_to_vector2i p) (pyint (drill * 1000000))

/-- The builder's mutable surroundings: the items this run has placed on
the board (`board.Add`) and the members of its group (`group.AddItem`). -/
structure BuilderState where
  board : List BoardItem
  group : List BoardItem
  deriving DecidableEq

/-- State change of `emit_line` (source lines 134–135): the item is added
to the board and then to the group. -/
def emit_line_run (s : BuilderState) (routing : List Layer) (p0 p1 : ℚ × ℚ)
    (width : ℚ) (layer : Layer) : BuilderState :=
  ⟨s.board ++ [emit_line_item routing p0 p1 width layer],
   s.group ++ [emit_line_item routing p0 p1 width layer]⟩

/-- State change of `emit_arc` (source lines 160–161): the item is added
to the board and then to the group. -/
def emit_arc_run (s : BuilderState) (routing : List Layer) (startP midP endP : ℚ × ℚ)
    (width : ℚ) (layer : Layer) : BuilderState :=
  ⟨s.board ++ [emit_arc_item routing startP midP endP width layer],
   s.group ++ [emit_arc_item routing startP midP endP width layer]⟩

/-- What `emit_via` reports back: the messages it printed, the error it
surfaced to its caller (the function returns normally in every case, so
this is always `none`), and whether the fallback path ran. -/
structure ViaReport where
  logs : List String
  surfaced : Option String
  fallbackAttempted : Bool
  deriving DecidableEq

/-- `FixedKicadTrackBuilder.emit_via` (source lines 163–196).  The two
Boolean flags model whether the `pcbnew` calls of the primary
footprint-based path and of the fallback `PCB_VIA` path raise.  On primary
failure the exception is caught, a warning is printed and the fallback is
attempted; on fallback failure the error is printed and the call still
returns normally.  No error is ever surfaced to the caller. -/
def emit_via_run (s : BuilderState) (p : ℚ × ℚ) (drill pad : ℚ)
    (primaryFails fallbackFails : Bool) : BuilderState × ViaReport :=
  if primaryFails then
    if fallbackFails then
      (s, ⟨["Warning: Could not create via", "Error creating via fallback"], none, true⟩)
    else
      (⟨s.board ++ [via_fallback_item p drill], s.group ++ [via_fallback_item p drill]⟩,
       ⟨["Warning: Could not create via"], none, true⟩)
  else
    (⟨s.board ++ [via_module_item p drill pad], s.group ++ [via_module_item p drill pad]⟩,
     ⟨[], none, false⟩)

/-- Modelled from the spec: the guide path model of §4.3 (curvycad
library, not in the sources), through its public interface: memoized total
length and arc-length sampling.  The spec's `(Point, headingAngle,
curvature)` result is represented by the sampled point and the unit left
normal there (the heading is only ever used through its 90°-rotated
normal, §4.3). -/
structure Guide where
  len : ℚ
  samplePt : ℚ → ℚ × ℚ
  sampleNormal : ℚ → ℚ × ℚ

/-- Primitives the projector hands to the emitter, in global millimetre
coordinates. -/
inductive Primitive
  | line (p0 p1 : ℚ × ℚ) (width : ℚ) (layer : Layer)
  | via (p : ℚ × ℚ) (drill pad : ℚ)
  deriving DecidableEq

/-- Start point of a line primitive. -/
def Primitive.lineStart : Primitive → Option (ℚ × ℚ)
  | .line p0 _ _ _ => some p0
  | .via _ _ _ => none

/-- End point of a line primitive. -/
def Primitive.lineStop : Primitive → Option (ℚ × ℚ)
  | .line _ p1 _ _ => some p1
  | .via _ _ _ => none

/-- Modelled from the spec: one pattern element of period `k` projected
through the guide (spec §4.4 step 2, curvycad projector, not in the
sources): normalized coordinates become centerline positions
`k·pitch + u·pitch`, and each emission point is `base + offset · normal`
at the sampled position.  Guide-segment splitting of a parallel line is
not represented: each element yields the single primitive between its
sampled endpoints (exact for guides of one straight segment, the only
guides the claims below project through this model). -/
def emitElement (g : Guide) (pitch : ℚ) (k : ℕ) : PatternElement → Primitive
  | .parallel uStart uEnd offset width layer =>
      .line (g.samplePt ((k : ℚ) * pitch + uStart * pitch)
              + offset • g.sampleNormal ((k : ℚ) * pitch + uStart * pitch))
            (g.samplePt ((k : ℚ) * pitch + uEnd * pitch)
              + offset • g.sampleNormal ((k : ℚ) * pitch + uEnd * pitch))
            width layer
  | .transverse offsetStart offsetEnd u width layer =>
      .line (g.samplePt ((k : ℚ) * pitch + u * pitch)
              + offsetStart • g.sampleNormal ((k : ℚ) * pitch + u * pitch))
            (g.samplePt ((k : ℚ) * pitch + u * pitch)
              + offsetEnd • g.sampleNormal ((k : ℚ) * pitch + u * pitch))
            width layer
  | .via u offset drill pad =>
      .via (g.samplePt ((k : ℚ) * pitch + u * pitch)
              + offset • g.sampleNormal ((k : ℚ) * pitch + u * pitch))
           drill pad

/-- Modelled from the spec: `periodCount = floor(guide.length() / pitch)`
(spec §4.4 step 1, curvycad projector, not in the sources). -/
def periodCount (g : Guide) (pitch : ℚ) : ℤ :=
  ⌊g.len / pitch⌋

/-- Modelled from the spec: the primitives of the first `n` whole periods,
in emission order (period-major, then pattern order; spec §4.4 step 2). -/
def emitPeriods (g : Guide) (pat : List PatternElement) (pitch : ℚ) : ℕ → List Primitive
  | 0 => []
  | n + 1 => emitPeriods g pat pitch n ++ pat.map (emitElement g pitch n)

/-- Modelled from the spec: `project` (spec §4.4, curvycad projector, not
in the sources), with the emitter capture passed explicitly: the capture
list accumulates every primitive handed to the emitter, so an unchanged
capture means the emitter received zero calls.  If fewer than one period
fits, the projection fails with `pathTooShort` before any emission;
otherwise it emits every period and returns the period count. -/
def projectInto (capture : List Primitive) (g : Guide) (pat : List PatternElement)
    (pitch : ℚ) : List Primitive × Except TrackError ℤ :=
  if periodCount g pitch < 1 then
    (capture, .error .pathTooShort)
  else
    (capture ++ emitPeriods g pat pitch (periodCount g pitch).toNat,
     .ok (periodCount g pitch))

/-- Modelled from the spec: a guide path of a single straight segment
(spec §3 `Line`), starting at `a` with unit tangent `dir` and left normal
`nrm`, of length `L`: sampling at arc-length `pos` gives `a + pos • dir`
and the constant normal. -/
def straightGuide (a dir nrm : ℚ × ℚ) (L : ℚ) : Guide :=
  ⟨L, fun pos => a + pos • dir, fun _ => nrm⟩

/-- Modelled from the spec: a point of the centerline arc (spec §4.1 arc
parameterization; curvycad geometry, not in the sources): the left-turning
(counterclockwise) arc of center `c`, radius `R`, start angle `φ0`,
sampled at arc-length `s`, is at angle `φ0 + s / R`. -/
noncomputable def arcBase (c : ℝ × ℝ) (R φ0 s : ℝ) : ℝ × ℝ :=
  (c.1 + R * Real.cos (φ0 + s / R), c.2 + R * Real.sin (φ0 + s / R))

/-- Modelled from the spec: the unit tangent of the counterclockwise arc
at arc-length `s`. -/
noncomputable def arcTangent (R φ0 s : ℝ) : ℝ × ℝ :=
  (-Real.sin (φ0 + s / R), Real.cos (φ0 + s / R))

/-- The local left normal: the tangent rotated by 90° counterclockwise
(spec §4.3, "rotate tangent by 90°"). -/
def leftNormal (v : ℝ × ℝ) : ℝ × ℝ :=
  (-v.2, v.1)

/-- Modelled from the spec: the emission point for transverse offset `d`
(positive to the path's left) at centerline arc-length `s`:
`base + offset · normal(heading)` (spec §4.4 step 2). -/
noncomputable def offsetPoint (c : ℝ × ℝ) (R φ0 d s : ℝ) : ℝ × ℝ :=
  arcBase c R φ0 s + d • leftNormal (arcTangent R φ0 s)

/-- Modelled from the spec: the path length along the offset track (the
locus of `offsetPoint`) of the geometry emitted for a parallel line
spanning the full arc of included angle `θ`: the arc length of
`s ↦ offsetPoint c R φ0 d s` over the centerline interval `[0, R·θ]`,
as the integral of the speed. -/
noncomputable def offsetTrackLength (c : ℝ × ℝ) (R φ0 d θ : ℝ) : ℝ :=
  ∫ s in (0 : ℝ)..(R * θ),
    Real.sqrt ((deriv (fun t => (offsetPoint c R φ0 d t).1) s) ^ 2
      + (deriv (fun t => (offsetPoint c R φ0 d t).2) s) ^ 2)

/-- C3: for every emitted line or arc primitive, a routing-layer
declaration yields an electrically-connected track/arc item and any other
layer yields a non-connected drawn shape item, in both cases with the same
geometry: same endpoints (and mid point for arcs), same width and same
layer. -/
theorem layer_routing_rule (routing : List Layer) (p0 p1 pm : ℚ × ℚ) (w : ℚ) (l : Layer) :
    ((emit_line_item routing p0 p1 w l).isConnected = true ↔ l ∈ routing)
    ∧ (emit_line_item routing p0 p1 w l).startOf = some (point_to_vector2i p0)
    ∧ (emit_line_item routing p0 p1 w l).stopOf = some (point_to_vector2i p1)
    ∧ (emit_line_item routing p0 p1 w l).widthOf = some (pyint (w * 1000000))
    ∧ (emit_line_item routing p0 p1 w l).layerOf = some l
    ∧ ((emit_arc_item routing p0 pm p1 w l).isConnected = true ↔ l ∈ routing)
    ∧ (emit_arc_item routing p0 pm p1 w l).startOf = some (point_to_vector2i p0)
    ∧ (emit_arc_item routing p0 pm p1 w l).midOf = some (point_to_vector2i pm)
    ∧ (emit_arc_item routing p0 pm p1 w l).stopOf = some (point_to_vector2i p1)
    ∧ (emit_arc_item routing p0 pm p1 w l).widthOf = some (pyint (w * 1000000))
    ∧ (emit_arc_item routing p0 pm p1 w l).layerOf = some l := by
  by_cases h : l ∈ routing <;>
    simp [emit_line_item, emit_arc_item, h, BoardItem.isConnected, BoardItem.startOf,
      BoardItem.stopOf, BoardItem.midOf, BoardItem.widthOf, BoardItem.layerOf]

/-- C9: every coordinate and every width/drill/pad diameter handed to the
host is converted by the one rule `toInternal` (truncation of the value
times `1e6`), uniformly across `emit_line`, `emit_arc` and `emit_via`. -/
theorem uniform_unit_conversion (routing : List Layer) (p0 p1 pm p : ℚ × ℚ)
    (w drill pad : ℚ) (l : Layer) :
    point_to_vector2i p0 = (toInternal p0.1, toInternal p0.2)
    ∧ (emit_line_item routing p0 p1 w l).widthOf = some (toInternal w)
    ∧ (emit_arc_item routing p0 pm p1 w l).widthOf = some (toInternal w)
    ∧ via_module_item p drill pad
        = .footprintVia (toInternal p.1, toInternal p.2) (toInternal pad, toInternal pad)
            (toInternal drill, toInternal drill)
    ∧ via_fallback_item p drill
        = .throughVia (toInternal p.1, toInternal p.2) (toInternal drill) := by
  by_cases h : l ∈ routing <;>
    simp [point_to_vector2i, toInternal, emit_line_item, emit_arc_item,
      via_module_item, via_fallback_item, h, BoardItem.widthOf]

/-- C10: every emit call adds the items it creates both to the board and
to the builder's group, so the invariant "the board is the pre-existing
content followed by exactly the group members" is preserved by
`emit_line`, `emit_arc` and `emit_via` in every outcome. -/
theorem board_group_sync (pre : List BoardItem) (s : BuilderState)
    (hs : s.board = pre ++ s.group) (routing : List Layer) (p0 p1 pm p : ℚ × ℚ)
    (w drill pad : ℚ) (l : Layer) (pf ff : Bool) :
    (emit_line_run s routing p0 p1 w l).board
      = pre ++ (emit_line_run s routing p0 p1 w l).group
    ∧ (emit_arc_run s routing p0 pm p1 w l).board
      = pre ++ (emit_arc_run s routing p0 pm p1 w l).group
    ∧ (emit_via_run s p drill pad pf ff).1.board
      = pre ++ (emit_via_run s p drill pad pf ff).1.group := by
  refine ⟨?_, ?_, ?_⟩ <;> cases pf <;> cases ff <;>
    simp [emit_line_run, emit_arc_run, emit_via_run, hs]

/-- Witness for C10 at a concrete state and concrete inputs. -/
theorem board_group_sync_witness :
    (emit_line_run ⟨[], []⟩ [0] (0, 0) (1, 1) 1 0).board
      = [] ++ (emit_line_run ⟨[], []⟩ [0] (0, 0) (1, 1) 1 0).group
    ∧ (emit_arc_run ⟨[], []⟩ [0] (0, 0) (2, 2) (1, 1) 1 0).board
      = [] ++ (emit_arc_run ⟨[], []⟩ [0] (0, 0) (2, 2) (1, 1) 1 0).group
    ∧ (emit_via_run ⟨[], []⟩ (3, 3) 0.2 0.45 true false).1.board
      = [] ++ (emit_via_run ⟨[], []⟩ (3, 3) 0.2 0.45 true false).1.group :=
  board_group_sync [] ⟨[], []⟩ rfl [0] (0, 0) (1, 1) (2, 2) (3, 3) 1 0.2 0.45 0 true false

/-- C4 fails on the code: a failure of `emit_via`'s primary path is
retried through the fallback path, no error is surfaced to the caller, and
emission continues (the fallback item is still placed), contradicting
"never retried and never silently swallowed or logged-and-continued". -/
theorem emit_via_failure_swallowed_counterexample :
    (emit_via_run ⟨[], []⟩ (0, 0) 0.2 0.45 true false).2.fallbackAttempted = true
    ∧ (emit_via_run ⟨[], []⟩ (0, 0) 0.2 0.45 true false).2.surfaced = none
    ∧ (emit_via_run ⟨[], []⟩ (0, 0) 0.2 0.45 true false).1.group ≠ [] := by
  refine ⟨rfl, rfl, ?_⟩
  simp [emit_via_run]

/-- C4 (amended): `emit_via` never surfaces an error to its caller; when
the primary footprint path fails it logs a warning and retries once via
the fallback `PCB_VIA` path, and when the fallback also fails it logs
again and continues with nothing placed. -/
theorem emit_via_failure_handling (s : BuilderState) (p : ℚ × ℚ) (drill pad : ℚ)
    (pf ff : Bool) :
    (emit_via_run s p drill pad pf ff).2.surfaced = none
    ∧ (pf = false →
        (emit_via_run s p drill pad pf ff).2.fallbackAttempted = false
        ∧ (emit_via_run s p drill pad pf ff).1.board
            = s.board ++ [via_module_item p drill pad])
    ∧ (pf = true →
        (emit_via_run s p drill pad pf ff).2.fallbackAttempted = true
        ∧ (ff = false →
            (emit_via_run s p drill pad pf ff).1.board
              = s.board ++ [via_fallback_item p drill])
        ∧ (ff = true →
            (emit_via_run s p drill pad pf ff).1 = s
            ∧ (emit_via_run s p drill pad pf ff).2.logs.length = 2)) := by
  cases pf <;> cases ff <;> simp [emit_via_run]

/-- Witness for C4's amended theorem: primary failure with a succeeding
fallback, at a concrete input. -/
theorem emit_via_failure_handling_witness :
    (emit_via_run ⟨[], []⟩ (1, 2) 0.2 0.45 true false).2.surfaced = none
    ∧ (emit_via_run ⟨[], []⟩ (1, 2) 0.2 0.45 true false).2.fallbackAttempted = true
    ∧ (emit_via_run ⟨[], []⟩ (1, 2) 0.2 0.45 true false).1.board
        = [via_fallback_item (1, 2) 0.2] :=
  ⟨(emit_via_failure_handling ⟨[], []⟩ (1, 2) 0.2 0.45 true false).1,
   ((emit_via_failure_handling ⟨[], []⟩ (1, 2) 0.2 0.45 true false).2.2 rfl).1,
   ((emit_via_failure_handling ⟨[], []⟩ (1, 2) 0.2 0.45 true false).2.2 rfl).2.1 rfl⟩

/-- C5: pattern construction fails with `invalidPattern` exactly when some
element violates an invariant.  The constructor takes only the element
list, so the failure occurs before any guide path is supplied or any
projection work begins. -/
theorem pattern_validation_iff (es : List PatternElement) :
    mkPattern es = .error .invalidPattern ↔ ∃ e ∈ es, ¬ ElementInvariant e := by
  by_cases h : ∀ e ∈ es, ElementInvariant e
  · simp only [mkPattern, dif_pos h]
    constructor
    · intro hc; exact absurd hc (by simp)
    · rintro ⟨e, he, hne⟩; exact absurd (h e he) hne
  · simp only [mkPattern, dif_neg h]
    constructor
    · intro _; push_neg at h; exact h
    · intro _; trivial

/-- Witness for C5: a pattern containing a `ParallelLine` with
`uStart = 0.6 > uEnd = 0.4` fails with `invalidPattern` at construction. -/
theorem pattern_validation_iff_witness :
    mkPattern [.parallel 0.6 0.4 (-(TRACK_CENTER - TRACK_MINOR)) LINE_WIDTH In1_Cu]
      = .error .invalidPattern :=
  (pattern_validation_iff _).mpr
    ⟨.parallel 0.6 0.4 (-(TRACK_CENTER - TRACK_MINOR)) LINE_WIDTH In1_Cu, by simp,
     by norm_num [ElementInvariant]⟩

/-- C8: every element of the list returned by `create_track_pattern`
satisfies the pattern construction invariant: longitudinal coordinates in
`[0,1]`, `uStart ≤ uEnd` for parallel lines, and strictly positive widths,
drill diameters and pad diameters. -/
theorem track_pattern_satisfies_invariants :
    ∀ e ∈ create_track_pattern, ElementInvariant e := by
  intro e he
  fin_cases he <;>
    norm_num [ElementInvariant, WIDTH, VIA_PAD, VIA_DRILL, CU_CLEARANCE, LINE_WIDTH,
      GUIDE_RAIL_WIDTH, GUIDE_RAIL_SPACE, OUTER_MARKING_WIDTH, TRACK_CENTER,
      TRACK_MINOR, TRACK_MAJOR]

/-- Witness for C8 at the first element of the pattern. -/
theorem track_pattern_satisfies_invariants_witness :
    ElementInvariant
      (.parallel 0 1 (TRACK_CENTER + TRACK_MAJOR + OUTER_MARKING_WIDTH / 2)
        OUTER_MARKING_WIDTH F_SilkS) :=
  track_pattern_satisfies_invariants _ (by simp [create_track_pattern])

/-- C2: the projector computes `periodCount = floor(length / pitch)`, and
when the guide is shorter than one pitch it fails with `pathTooShort`
while the emitter capture is left untouched: the emitter receives zero
calls, so no primitive is emitted before the check passes. -/
theorem path_too_short_no_emission (cap : List Primitive) (g : Guide)
    (pat : List PatternElement) (pitch : ℚ) (hp : 0 < pitch) :
    periodCount g pitch = ⌊g.len / pitch⌋
    ∧ (g.len < pitch → projectInto cap g pat pitch = (cap, .error .pathTooShort)) := by
  refine ⟨rfl, fun hlen => ?_⟩
  have h1 : g.len / pitch < 1 := (div_lt_one hp).mpr hlen
  have h2 : periodCount g pitch < 1 := by
    have := Int.floor_lt.mpr (show g.len / pitch < ((1 : ℤ) : ℚ) by exact_mod_cast h1)
    simpa [periodCount] using this
  simp [projectInto, if_pos h2]

/-- Witness for C2: a guide of length 1 projected with pitch 2 and an
empty capture fails with `pathTooShort` and leaves the capture empty. -/
theorem path_too_short_no_emission_witness :
    (0 : ℚ) < 2 ∧ (1 : ℚ) < 2
    ∧ projectInto [] ⟨1, fun _ => (0, 0), fun _ => (0, 1)⟩ [] 2
        = ([], .error .pathTooShort) :=
  ⟨by norm_num, by norm_num,
   (path_too_short_no_emission [] ⟨1, fun _ => (0, 0), fun _ => (0, 1)⟩ [] 2
      (by norm_num)).2 (by norm_num)⟩

/-- C7: `project` is deterministic in its inputs: two runs with identical
guide, pattern and pitch, each recording into its own independent emitter
capture, append the identical primitive list to their captures and return
the identical result. -/
theorem project_deterministic (g : Guide) (pat : List PatternElement) (pitch : ℚ)
    (cap1 cap2 : List Primitive) :
    ((projectInto cap1 g pat pitch).1).drop cap1.length
      = ((projectInto cap2 g pat pitch).1).drop cap2.length
    ∧ (projectInto cap1 g pat pitch).2 = (projectInto cap2 g pat pitch).2 := by
  by_cases h : periodCount g pitch < 1 <;>
    simp [projectInto, h, List.drop_length, List.drop_left]

/-- For a singleton pattern, the first `n` periods emit one primitive per
period, in period order. -/
theorem emitPeriods_singleton (g : Guide) (e : PatternElement) (pitch : ℚ) (n : ℕ) :
    emitPeriods g [e] pitch n = (List.range n).map (fun k => emitElement g pitch k e) := by
  induction n with
  | zero => rfl
  | succ n ih => simp [emitPeriods, ih, List.range_succ]

/-- C6: projecting a pattern of one `ParallelLine(0, 1, offset = 0)` with
pitch `p` along a single straight segment of length `L ≥ p` emits exactly
`floor(L/p)` straight lines; the period-`k` line runs from
`a + (k·p) • dir` to `a + ((k+1)·p) • dir`, so the emitted lines tile
`[0, floor(L/p)·p]` and the endpoint of the period-`k` line is exactly the
start point of the period-`(k+1)` line (equality in `ℚ`, hence within any
tolerance). -/
theorem straight_guide_tiling (a dir nrm : ℚ × ℚ) (L p w : ℚ) (layer : Layer)
    (hp : 0 < p) (hL : p ≤ L) :
    (projectInto [] (straightGuide a dir nrm L) [.parallel 0 1 0 w layer] p).1
      = (List.range (⌊L / p⌋).toNat).map
          (fun k => .line (a + ((k : ℚ) * p) • dir) (a + (((k : ℚ) + 1) * p) • dir) w layer)
    ∧ ((projectInto [] (straightGuide a dir nrm L) [.parallel 0 1 0 w layer] p).1).length
        = (⌊L / p⌋).toNat
    ∧ ∀ k : ℕ, k + 1 < (⌊L / p⌋).toNat →
        (((projectInto [] (straightGuide a dir nrm L) [.parallel 0 1 0 w layer] p).1)[k]?).bind
            Primitive.lineStop
          = (((projectInto [] (straightGuide a dir nrm L) [.parallel 0 1 0 w layer] p).1)[k+1]?).bind
            Primitive.lineStart := by
  have hpc : ¬ periodCount (straightGuide a dir nrm L) p < 1 := by
    have h1 : (1 : ℚ) ≤ L / p := (one_le_div hp).mpr hL
    have h2 : (1 : ℤ) ≤ ⌊L / p⌋ := Int.le_floor.mpr (by exact_mod_cast h1)
    simp only [periodCount, straightGuide, not_lt]
    exact h2
  have e1 : ∀ k : ℚ, k * p + 0 * p = k * p := by intro k; ring
  have e2 : ∀ k : ℚ, k * p + 1 * p = (k + 1) * p := by intro k; ring
  have e3 : ∀ k : ℚ, k * p + p = (k + 1) * p := by intro k; ring
  have hmain :
      (projectInto [] (straightGuide a dir nrm L) [.parallel 0 1 0 w layer] p).1
        = (List.range (⌊L / p⌋).toNat).map
            (fun k => .line (a + ((k : ℚ) * p) • dir) (a + (((k : ℚ) + 1) * p) • dir) w layer) := by
    simp only [projectInto, if_neg hpc, List.nil_append, emitPeriods_singleton]
    have hcount : (periodCount (straightGuide a dir nrm L) p).toNat = (⌊L / p⌋).toNat := rfl
    rw [hcount]
    apply List.map_congr_left
    intro k _
    simp [emitElement, straightGuide, e1, e2, e3]
  refine ⟨hmain, by rw [hmain]; simp, fun k hk => ?_⟩
  have hk1 : k < (⌊L / p⌋).toNat := Nat.lt_of_succ_lt hk
  rw [hmain, List.getElem?_map, List.getElem?_map, List.getElem?_range hk1,
    List.getElem?_range hk]
  simp only [Option.map_some', Option.some_bind, Primitive.lineStop, Primitive.lineStart]
  have e4 : (((k + 1 : ℕ) : ℚ) * p) = ((k : ℚ) + 1) * p := by push_cast; ring
  rw [e4]

/-- Witness for C6: a straight guide of length 2 with pitch 1 emits two
lines, `(0,0)→(1,0)` and `(1,0)→(2,0)`: the endpoint of period 0 equals
the start point of period 1. -/
theorem straight_guide_tiling_witness :
    (0 : ℚ) < 1 ∧ (1 : ℚ) ≤ 2
    ∧ (projectInto [] (straightGuide (0, 0) (1, 0) (0, 1) 2) [.parallel 0 1 0 1 0] 1).1
        = [.line (0, 0) (1, 0) 1 0, .line (1, 0) (2, 0) 1 0] := by
  refine ⟨by norm_num, by norm_num, ?_⟩
  rw [(straight_guide_tiling (0, 0) (1, 0) (0, 1) 2 1 1 0 (by norm_num) (by norm_num)).1]
  have h2 : (⌊(2 : ℚ) / 1⌋).toNat = 2 := by norm_num; rfl
  rw [h2]
  have hr : List.range 2 = [0, 1] := rfl
  rw [hr]
  simp [Prod.ext_iff]
  norm_num

/-- First coordinate of the offset emission point in closed form: the
offset track is the circle of radius `R - d` about the arc center. -/
theorem offsetPoint_fst (c : ℝ × ℝ) (R φ0 d : ℝ) :
    (fun s => (offsetPoint c R φ0 d s).1)
      = fun s => c.1 + (R - d) * Real.cos (φ0 + s / R) := by
  funext s
  simp only [offsetPoint, arcBase, arcTangent, leftNormal, Prod.smul_mk, Prod.fst_add,
    smul_eq_mul]
  ring

/-- Second coordinate of the offset emission point in closed form. -/
theorem offsetPoint_snd (c : ℝ × ℝ) (R φ0 d : ℝ) :
    (fun s => (offsetPoint c R φ0 d s).2)
      = fun s => c.2 + (R - d) * Real.sin (φ0 + s / R) := by
  funext s
  simp only [offsetPoint, arcBase, arcTangent, leftNormal, Prod.smul_mk, Prod.snd_add,
    smul_eq_mul]
  ring

/-- C1: on a left-turning arc of radius `R` and included angle `θ`, the
emission points carried at signed transverse offset `d` (positive to the
path's left) lie on the circle of radius `R - d` about the arc center, and
the emitted geometry's path length along that offset track is
`(R - d) · θ` — and in particular not `R · θ` whenever `0 < d` and
`0 < θ`. -/
theorem arc_offset_track_length (c : ℝ × ℝ) (R φ0 d θ : ℝ) (hR : 0 < R) (hdR : d ≤ R) :
    (∀ s, offsetPoint c R φ0 d s
        = (c.1 + (R - d) * Real.cos (φ0 + s / R), c.2 + (R - d) * Real.sin (φ0 + s / R)))
    ∧ offsetTrackLength c R φ0 d θ = (R - d) * θ
    ∧ (0 < d → 0 < θ → offsetTrackLength c R φ0 d θ ≠ R * θ) := by
  have hpoint : ∀ s, offsetPoint c R φ0 d s
      = (c.1 + (R - d) * Real.cos (φ0 + s / R), c.2 + (R - d) * Real.sin (φ0 + s / R)) := by
    intro s
    exact Prod.ext (congrFun (offsetPoint_fst c R φ0 d) s) (congrFun (offsetPoint_snd c R φ0 d) s)
  have hlen : offsetTrackLength c R φ0 d θ = (R - d) * θ := by
    unfold offsetTrackLength
    have hcongr : (fun s : ℝ => Real.sqrt ((deriv (fun t => (offsetPoint c R φ0 d t).1) s) ^ 2
        + (deriv (fun t => (offsetPoint c R φ0 d t).2) s) ^ 2)) = fun _ : ℝ => (R - d) / R := by
      funext s
      have h1 : HasDerivAt (fun t : ℝ => φ0 + t / R) (1 / R) s := by
        simpa using ((hasDerivAt_id s).div_const R).const_add φ0
      have hx : HasDerivAt (fun t : ℝ => c.1 + (R - d) * Real.cos (φ0 + t / R))
          ((R - d) * (-Real.sin (φ0 + s / R) * (1 / R))) s :=
        (h1.cos.const_mul (R - d)).const_add c.1
      have hy : HasDerivAt (fun t : ℝ => c.2 + (R - d) * Real.sin (φ0 + t / R))
          ((R - d) * (Real.cos (φ0 + s / R) * (1 / R))) s :=
        (h1.sin.const_mul (R - d)).const_add c.2
      rw [offsetPoint_fst c R φ0 d, offsetPoint_snd c R φ0 d, hx.deriv, hy.deriv]
      have hsum : ((R - d) * (-Real.sin (φ0 + s / R) * (1 / R))) ^ 2
          + ((R - d) * (Real.cos (φ0 + s / R) * (1 / R))) ^ 2 = ((R - d) / R) ^ 2 := by
        have ht := Real.sin_sq_add_cos_sq (φ0 + s / R)
        have hfactor : ((R - d) * (-Real.sin (φ0 + s / R) * (1 / R))) ^ 2
            + ((R - d) * (Real.cos (φ0 + s / R) * (1 / R))) ^ 2
            = ((R - d) / R) ^ 2 * (Real.sin (φ0 + s / R) ^ 2 + Real.cos (φ0 + s / R) ^ 2) := by
          ring
        rw [hfactor, ht, mul_one]
      rw [hsum, Real.sqrt_sq (div_nonneg (sub_nonneg.mpr hdR) hR.le)]
    rw [hcongr, intervalIntegral.integral_const, smul_eq_mul, sub_zero]
    field_simp
    ring
  refine ⟨hpoint, hlen, fun hd hθ => ?_⟩
  rw [hlen]
  have hlt : (R - d) * θ < R * θ := by
    apply mul_lt_mul_of_pos_right _ hθ
    linarith
  exact ne_of_lt hlt

/-- Witness for C1: a single arc with `R = 50` mm and `θ = 90°`, a
parallel line spanning one period at `d = 5` mm: the emitted length is
`(50 − 5)·(π/2)`, not `50·(π/2)`. -/
theorem arc_offset_track_length_witness :
    (0 : ℝ) < 50 ∧ (5 : ℝ) ≤ 50
    ∧ offsetTrackLength (0, 0) 50 0 5 (Real.pi / 2) = (50 - 5) * (Real.pi / 2)
    ∧ offsetTrackLength (0, 0) 50 0 5 (Real.pi / 2) ≠ 50 * (Real.pi / 2) :=
  ⟨by norm_num, by norm_num,
   (arc_offset_track_length (0, 0) 50 0 5 (Real.pi / 2) (by norm_num) (by norm_num)).2.1,
   (arc_offset_track_length (0, 0) 50 0 5 (Real.pi / 2) (by norm_num) (by norm_num)).2.2
     (by norm_num) (by positivity)⟩
